import Mathlib

/-!
Shallow embedding of the FSLogHandler component (src/FSLogHandler.h,
src/FSLogHandler.cpp): a buffered file log writer for an embedded
filesystem, with a byte/time flush policy, a resumable dump reader and a
message formatter.  File contents are modelled as lists of characters
(the code only ever handles byte strings), the handler state as a record
mirroring the private fields of the class, and environmental outcomes
(the fd returned by open, write success) as explicit parameters.
-/

set_option autoImplicit false

namespace FSLog

/-- ASCII NUL, the C string terminator. -/
def nulChar : Char := Char.ofNat 0

/-- Severity levels delivered by the host logging framework.  The
framework (out of scope of this repository) filters records before they
reach logMessage; only the name of the level matters here. -/
inductive LogLevel where
  | trace
  | info
  | warn
  | error
deriving DecidableEq

/-- Modelled from the spec: severity name used by the formatter
("severity name followed by a colon"); the framework function
LogHandler::levelName is outside this repository. -/
def levelName : LogLevel → String
  | .trace => "TRACE"
  | .info => "INFO"
  | .warn => "WARN"
  | .error => "ERROR"

/-- The LogAttributes structure of the framework callback: optional
timestamp, source file, line, function, code and details, each guarded
by a has_ flag, exactly as read by logMessage. -/
structure LogAttributes where
  has_time : Bool := false
  time : Nat := 0
  has_file : Bool := false
  file : String := ""
  has_line : Bool := false
  line : Int := 0
  has_function : Bool := false
  function : String := ""
  has_code : Bool := false
  code : Int := 0
  has_details : Bool := false
  details : String := ""
deriving DecidableEq

/-- Rendering of String::format with format "%010u " : the timestamp cast
to a 32-bit unsigned value, zero padded to 10 digits, with the trailing
space of the format string. -/
def fmt10 (t : Nat) : String :=
  let s := toString (t % 4294967296)
  String.mk (List.replicate (10 - s.length) (Char.ofNat 48)) ++ s ++ " "

/-- Rendering of String::format with format "code = %p" applied to the
code attribute cast to intptr_t: hexadecimal with a 0x marker, as newlib
prints pointers on the target. -/
def ptrFmt (code : Int) : String :=
  "0x" ++ String.mk (Nat.toDigits 16 (code.emod 4294967296).toNat)

/-- The suffix after the last slash of a character list, or the whole
list when no slash occurs: the result of strrchr plus one. -/
def afterLastSlash : List Char → List Char
  | [] => []
  | c :: cs =>
    if cs.contains '/' then afterLastSlash cs
    else if c = '/' then cs else c :: cs

/-- FSLogHandler::extractFileName: strrchr for the last slash; the
suffix after it, or the whole string when there is none. -/
def extractFileName (s : String) : String :=
  String.mk (afterLastSlash s.toList)

/-- FSLogHandler::extractFuncName: scans until the first opening paren,
remembering the position p just after the last space seen; returns the
C string starting at that position (which runs to the end of the
original string, not just to the paren) together with the size written
through the out parameter (distance from p to the paren). -/
def extractFuncName (s : String) : String × Nat :=
  let cs := s.toList
  let i := (cs.findIdx? (fun c => c = '(')).getD cs.length
  let s1 := match (cs.take i).reverse.findIdx? (fun c => c = ' ') with
    | some k => i - k
    | none => 0
  (String.mk (cs.drop s1), i - s1)

/-- The rendering step of FSLogHandler::logMessage, line by line.  The
source builds a String accumulator s; note that the source-file block
and the function block ASSIGN to s (s = extractFileName(...),
s = extractFuncName(...)) rather than concatenating, discarding
everything accumulated so far, and then execute s.concat(s), appending
the string to itself; the function block also ignores the size out
parameter, so the argument list is not stripped from the copied text.
The embedding reproduces those statements exactly. -/
def formatMessage (msg : Option String) (level : LogLevel) (category : Option String)
    (attr : LogAttributes) : String :=
  let s := ""
  let s := if attr.has_time then s ++ fmt10 attr.time else s
  let s := match category with
    | some cat => s ++ "[" ++ cat ++ "] "
    | none => s
  let s := if attr.has_file then
      let t := extractFileName attr.file
      let t := t ++ t
      let t := if attr.has_line then t ++ ":" ++ toString attr.line else t
      if attr.has_function then t ++ ", " else t ++ ": "
    else s
  let s := if attr.has_function then
      let t := (extractFuncName attr.function).1
      t ++ t ++ "(): "
    else s
  let s := s ++ levelName level ++ ": "
  let s := match msg with
    | some m => s ++ m
    | none => s
  let s := if attr.has_code || attr.has_details then
      let t := s ++ " ["
      let t := if attr.has_code then t ++ "code = " ++ ptrFmt attr.code else t
      let t := if attr.has_details then
          (if attr.has_code then t ++ ", " else t) ++ "details = " ++ attr.details
        else t
      t ++ "]"
    else s
  s ++ "\n\r"

/-- The private fields of the FSLogHandler class, with the names of the
source (the constant _path is omitted; it is fixed at construction and
only consumed by the filesystem calls, which the World models). -/
structure HState where
  _enabled : Bool
  _open : Bool
  _fd : Int
  _bytes_queued : Nat
  _max_bytes_queued : Nat
  _fsync_timeout_s : Nat
deriving DecidableEq

/-- Process-wide state touched by the component: the handler fields, the
content of the log file at _path (none when the file does not exist),
the two function-local static variables (last_ran in loop, f_cursor in
dump), a counter of fsync calls (the observable durability syncs) and
the side diagnostic channel.  The DEBUG_PRINTLNF call sites are modelled
as entries pushed on diag (the Serial channel the macros target when
FS_LOG_HANDLER_DEBUG_LEVEL enables them); the purely informational
TRACE_ sites, disabled at the default level 0, are not modelled. -/
structure World where
  h : HState
  file : Option (List Char)
  last_ran : Option Nat
  f_cursor : Int
  syncCount : Nat
  diag : List String
deriving DecidableEq

/-- The constructor FSLogHandler::FSLogHandler: starts closed with fd -1
and zero queued bytes, and configureFsync(4096, 10) sets the defaults.
The pre-existing file content at _path is file0; the loop and dump
statics are in their zero-initialized states. -/
def mkWorld (enable_now : Bool) (file0 : Option (List Char)) : World :=
  { h := { _enabled := enable_now, _open := false, _fd := -1, _bytes_queued := 0,
           _max_bytes_queued := 4096, _fsync_timeout_s := 10 },
    file := file0, last_ran := none, f_cursor := 0, syncCount := 0, diag := [] }

/-- FSLogHandler::syncAndClose: when open, fsync and close the fd, zero
the queued-byte counter and mark closed (the fd field itself is left at
its stale value, as in the source). -/
def syncAndClose (w : World) : World :=
  if w.h._open then
    { w with h := { w.h with _bytes_queued := 0, _open := false },
             syncCount := w.syncCount + 1 }
  else w

/-- FSLogHandler::getLogSize: fstat on the handle when open, else stat
on the path.  The source never checks the return value of stat, so when
the path does not exist st_size is read from the uninitialized stack
statbuf: that indeterminate value is the uninit parameter. -/
def getLogSize (w : World) (uninit : Int) : Int :=
  if w.h._open then ((w.file.getD []).length : Int)
  else match w.file with
    | some c => (c.length : Int)
    | none => uninit

/-- FSLogHandler::clearLogs: syncAndClose then unlink the path. -/
def clearLogs (w : World) : World :=
  let w1 := syncAndClose w
  { w1 with file := none }

/-- FSLogHandler::writeToFile: write the rendered message to the fd.  A
result of -1 (writeOk false) only emits a diagnostic and returns; on
success the bytes are appended and _bytes_queued grows by the message
length (a successful write is modelled as complete, the only outcomes
the source distinguishes). -/
def writeToFile (w : World) (message : String) (writeOk : Bool) : World :=
  if !writeOk then
    { w with diag := "FSLogHandler::write() FAILED!" :: w.diag }
  else
    { w with file := some ((w.file.getD []) ++ message.toList),
             h := { w.h with _bytes_queued := w.h._bytes_queued + message.length } }

/-- Unsigned 32-bit subtraction, the arithmetic of
System.uptime() - last_ran on unsigned int. -/
def usub32 (a b : Nat) : Nat :=
  (a % 4294967296 + 4294967296 - b % 4294967296) % 4294967296

/-- FSLogHandler::loop: the static last_ran is initialized with the
current uptime on the first call; when the file is open and either more
than 10 seconds elapsed with bytes queued or more than 4096 bytes are
queued (the literals of the source, not the configured fields), fsync,
zero the counter and restamp last_ran. -/
def loop (w : World) (uptime : Nat) : World :=
  let lr := (w.last_ran).getD uptime
  let w1 := { w with last_ran := some lr }
  if w1.h._open then
    if (usub32 uptime lr > 10 ∧ w1.h._bytes_queued > 0) ∨ w1.h._bytes_queued > 4096 then
      { w1 with h := { w1.h with _bytes_queued := 0 },
                last_ran := some uptime,
                syncCount := w1.syncCount + 1,
                diag := "FSLogHandler::loop() fsync" :: w1.diag }
    else w1
  else w1

/-- FSLogHandler::fileInit: when not open (or the fd is -1), create the
log directory and open the path with O_WRONLY, O_CREAT and O_TRUNC.
newFd is the descriptor the filesystem returns (-1 on failure).  On
failure the handler stays closed; on success the file now exists with
empty content (truncated) and the handler is open. -/
def fileInit (w : World) (newFd : Int) : World × Bool :=
  if w.h._open = false ∨ w.h._fd = -1 then
    if newFd = -1 then
      ({ w with h := { w.h with _fd := -1, _open := false },
                diag := "FSLogHandler::fileInit() open FAILED!" :: w.diag }, false)
    else
      ({ w with h := { w.h with _fd := newFd, _open := true }, file := some [] }, true)
  else (w, true)

/-- FSLogHandler::logMessage: drop the record when disabled; otherwise
lazily open via fileInit, render via formatMessage and append via
writeToFile. -/
def logMessage (w : World) (msg : Option String) (level : LogLevel)
    (category : Option String) (attr : LogAttributes) (newFd : Int) (writeOk : Bool) :
    World :=
  if !w.h._enabled then w
  else
    match fileInit w newFd with
    | (w1, false) => w1
    | (w1, true) => writeToFile w1 (formatMessage msg level category attr) writeOk

/-- FSLogHandler::configureFsync: stores the two thresholds. -/
def configureFsync (w : World) (max_bytes timeout_s : Nat) : World :=
  { w with h := { w.h with _max_bytes_queued := max_bytes, _fsync_timeout_s := timeout_s } }

/-- FSLogHandler::enable: toggles the _enabled flag only. -/
def enable (w : World) (e : Bool) : World :=
  { w with h := { w.h with _enabled := e } }

/-- The read-only open at the top of dump: POSIX open returns a small
non-negative descriptor on success (3 is the first free one here) and
-1 when the file does not exist. -/
def openRO (file : Option (List Char)) : Int :=
  if file.isSome then 3 else -1

/-- The do/while read loop of dump.  Each iteration reads up to 1023
bytes (sizeof buf minus one) at pos; the static cursor is incremented by
the signed result of read even when it is -1; buf is NUL-terminated at
the result index and printed with %s, so the chunk delivered to the sink
stops at the first NUL byte of the data; the loop exits only when read
returns 0.  On an invalid descriptor (valid false, the open-failed case
the source fails to detect) read returns -1 forever, so the loop never
exits: the fuel argument makes the model total, and none is the
out-of-fuel (non-terminating) outcome. -/
def dumpGo (valid : Bool) (c : List Char) :
    Nat → Nat → Int → List Char → Option (List Char × Int)
  | 0, _, _, _ => none
  | Nat.succ fuel, pos, cursor, out =>
    if valid then
      let bytes := min 1023 (c.length - pos)
      let chunk := (c.drop pos).take bytes
      let cursor2 := cursor + (bytes : Int)
      let out2 := out ++ chunk.takeWhile (fun ch => ch != nulChar)
      if bytes = 0 then some (out2, cursor2)
      else dumpGo valid c fuel (pos + bytes) cursor2 out2
    else
      dumpGo valid c fuel pos (cursor - 1) out

/-- FSLogHandler::dump: opens the path read-only, tests the descriptor
with the truthiness check of the source (only a zero descriptor counts
as failure), rewinds or seeks to the static cursor, then runs the read
loop.  Returns the delivered sink content and updates the cursor; none
models the non-terminating run on an invalid descriptor. -/
def dump (w : World) (read_from_beginning : Bool) (fuel : Nat) :
    Option (World × List Char) :=
  let dump_fd := openRO w.file
  if dump_fd = 0 then
    some ({ w with diag := "Logfile for dump open FAILED!" :: w.diag }, [])
  else
    let cur0 : Int := if read_from_beginning then 0 else w.f_cursor
    match dumpGo (decide (dump_fd ≠ -1)) (w.file.getD []) fuel cur0.toNat cur0 [] with
    | none => none
    | some (out, cur) => some ({ w with f_cursor := cur }, out)

/-- One call of the public interface, with its environmental outcomes. -/
inductive Op where
  | log (msg : Option String) (level : LogLevel) (category : Option String)
        (attr : LogAttributes) (newFd : Int) (writeOk : Bool)
  | tick (uptime : Nat)
  | clear
  | cfg (maxBytes timeoutS : Nat)
  | setEnabled (e : Bool)
  | close

/-- Dispatch of one interface call on the state. -/
def step (w : World) : Op → World
  | .log m l c a fd ok => logMessage w m l c a fd ok
  | .tick t => loop w t
  | .clear => clearLogs w
  | .cfg mb ts => configureFsync w mb ts
  | .setEnabled e => enable w e
  | .close => syncAndClose w

/-- A whole history of interface calls from a given state. -/
def runOps (w : World) (ops : List Op) : World :=
  ops.foldl step w

/-- The implicit writer invariant: a closed handler has no queued bytes,
and an open handler holds a real descriptor. -/
def WriterInv (w : World) : Prop :=
  (w.h._open = false → w.h._bytes_queued = 0) ∧
  (w.h._open = true → w.h._fd ≠ -1)

/-- The argument bundle of one logMessage call, with its environmental
outcomes (descriptor returned by a lazy open, write success). -/
structure LogCall where
  msg : Option String
  level : LogLevel
  category : Option String
  attr : LogAttributes
  newFd : Int
  writeOk : Bool

/-- A sequence of logMessage calls. -/
def runLogCalls (w : World) (cs : List LogCall) : World :=
  cs.foldl (fun w1 c => logMessage w1 c.msg c.level c.category c.attr c.newFd c.writeOk) w

/-- A freshly constructed, enabled handler over an absent log file. -/
def wClosed : World := mkWorld true none

/-- A freshly constructed handler built with enable_now false. -/
def wDisabled : World := mkWorld false none

/-- An open handler over an existing (truncated) file with five queued
bytes, last synced at uptime 0. -/
def wOpen5 : World :=
  { mkWorld true (some []) with
    h := { (mkWorld true (some [])).h with _open := true, _fd := 3, _bytes_queued := 5 },
    last_ran := some 0 }

/-- The same open handler with 200 queued bytes. -/
def wOpen200 : World := { wOpen5 with h := { wOpen5.h with _bytes_queued := 200 } }

/-- An enabled handler over a one-byte log file, dump cursor at zero. -/
def wA : World := mkWorld true (some ['a'])

/-- Record with timestamp and source file set, used to exhibit the
formatter accumulator bug. -/
def attrC1 : LogAttributes := { has_time := true, time := 5, has_file := true, file := "src/a.c" }

/-- C1: the rendering step of logMessage does not keep the present
fields in the claimed order: on a record with timestamp and source file
present, the source-file block assigns the extracted basename to the
accumulator instead of concatenating it, so the already rendered
timestamp is discarded and the basename is emitted twice.  The rendered
line is exactly "a.ca.c: INFO: m" followed by the terminator, and in
particular does not start with the zero-padded timestamp segment. -/
theorem formatMessage_overwrite_bug :
    formatMessage (some "m") .info none attrC1 = "a.ca.c: INFO: m\n\r" ∧
    ("0000000005 ".toList.isPrefixOf (formatMessage (some "m") .info none attrC1).toList)
      = false := by
  constructor <;> decide

/-- C2: configureFsync stores the thresholds, but the next loop call
evaluates the flush policy against the literals 4096 and 10 of the
source, not against the stored fields: after configureFsync(100, 2)
with 200 bytes pending and 5 seconds elapsed (both configured
thresholds exceeded), loop performs no sync and drops no bytes. -/
theorem configureFsync_ignored_by_loop :
    (configureFsync wOpen200 100 2).h._max_bytes_queued = 100 ∧
    (configureFsync wOpen200 100 2).h._fsync_timeout_s = 2 ∧
    (loop (configureFsync wOpen200 100 2) 5).syncCount =
      (configureFsync wOpen200 100 2).syncCount ∧
    (loop (configureFsync wOpen200 100 2) 5).h._bytes_queued = 200 := by
  refine ⟨rfl, rfl, ?_, ?_⟩ <;> rfl

/-- C5: after clearLogs the log file does not exist and the handler is
closed, but getLogSize then reads st_size from the stack statbuf that
the failed stat call never filled: the result is the indeterminate
value uninit, not 0 and not an error signal. -/
theorem clearLogs_getLogSize_uninit (w : World) (uninit : Int) :
    (clearLogs w).file = none ∧ (clearLogs w).h._open = false ∧
    getLogSize (clearLogs w) uninit = uninit := by
  cases hw : w.h._open <;>
    simp [clearLogs, syncAndClose, getLogSize, hw]

/-- C9: when the underlying write call fails, writeToFile leaves the
whole state unchanged except for one entry pushed on the side
diagnostic channel: the pending-byte counter keeps its value, the file
content is untouched (the record is dropped, not retried) and the
function returns normally. -/
theorem writeToFile_failure_no_state_change (w : World) (message : String) :
    writeToFile w message false =
      { w with diag := "FSLogHandler::write() FAILED!" :: w.diag } := rfl

/-- C7: while the handler is disabled every sequence of logMessage
calls is an exact no-op: the state after the sequence is the initial
state, so the log file is never created or opened and no bytes are
appended or counted as pending. -/
theorem logMessage_disabled_noop (w : World) (cs : List LogCall)
    (h : w.h._enabled = false) : runLogCalls w cs = w := by
  induction cs with
  | nil => rfl
  | cons c cs ih =>
    have h1 : logMessage w c.msg c.level c.category c.attr c.newFd c.writeOk = w := by
      simp [logMessage, h]
    show List.foldl _ (logMessage w c.msg c.level c.category c.attr c.newFd c.writeOk) cs = w
    rw [h1]
    exact ih

/-- Witness for C7 at a disabled handler and a one-call sequence. -/
theorem logMessage_disabled_noop_witness :
    wDisabled.h._enabled = false ∧
    runLogCalls wDisabled [⟨some "x", .info, none, {}, 3, true⟩] = wDisabled :=
  ⟨rfl, logMessage_disabled_noop wDisabled [⟨some "x", .info, none, {}, 3, true⟩] rfl⟩

/-- A loop call on a closed handler, or one with no queued bytes, only
initializes the static timestamp and changes nothing else. -/
theorem loop_idle (w : World) (t : Nat)
    (h : w.h._open = false ∨ w.h._bytes_queued = 0) :
    loop w t = { w with last_ran := some ((w.last_ran).getD t) } := by
  rcases h with h | h <;>
    simp [loop, h]

/-- C3: with the construction-time thresholds, one loop call performs a
durability sync and zeroes the pending counter exactly when the file is
open and either more than 4096 bytes are pending, or bytes are pending
and more than 10 seconds of 32-bit uptime elapsed since the last stamp;
and over any sequence of loop calls started with the file closed or the
counter at zero, no sync is ever performed. -/
theorem loop_flush_policy :
    (∀ (w : World) (t : Nat),
      ((loop w t).syncCount = w.syncCount + 1 ∧ (loop w t).h._bytes_queued = 0) ↔
        (w.h._open = true ∧
          (w.h._bytes_queued > 4096 ∨
            (w.h._bytes_queued > 0 ∧ usub32 t ((w.last_ran).getD t) > 10)))) ∧
    ∀ (w : World) (ts : List Nat), (w.h._open = false ∨ w.h._bytes_queued = 0) →
      (ts.foldl loop w).syncCount = w.syncCount := by
  constructor
  · intro w t
    cases hop : w.h._open
    · simp [loop, hop]
    · by_cases hcond :
        (usub32 t ((w.last_ran).getD t) > 10 ∧ w.h._bytes_queued > 0) ∨
          w.h._bytes_queued > 4096
      · simp only [loop, hop, if_pos, hcond, if_true]
        simp
        tauto
      · simp only [loop, hop]
        simp [hcond]
        omega
  · intro w ts
    induction ts generalizing w with
    | nil => intro _; rfl
    | cons t ts ih =>
      intro h
      show (ts.foldl loop (loop w t)).syncCount = w.syncCount
      rw [loop_idle w t h]
      exact ih _ h

/-- Witness for C3: a sync at an open handler with five pending bytes
and twenty seconds elapsed, and a three-tick sequence on a closed
handler with no sync. -/
theorem loop_flush_policy_witness :
    ((loop wOpen5 20).syncCount = wOpen5.syncCount + 1 ∧
      (loop wOpen5 20).h._bytes_queued = 0) ∧
    ([5, 20, 40].foldl loop wClosed).syncCount = wClosed.syncCount :=
  ⟨(loop_flush_policy.1 wOpen5 20).mpr (by decide),
   loop_flush_policy.2 wClosed [5, 20, 40] (Or.inl rfl)⟩

/-- The read loop on an invalid descriptor never terminates: read keeps
returning -1, which is nonzero, so the do/while condition never fails. -/
theorem dumpGo_invalid (c : List Char) :
    ∀ (fuel pos : Nat) (cursor : Int) (out : List Char),
      dumpGo false c fuel pos cursor out = none := by
  intro fuel
  induction fuel with
  | zero => intro pos cursor out; rfl
  | succ n ih =>
    intro pos cursor out
    simp [dumpGo, ih]

/-- C4: when the log file does not exist, the read-only open in dump
returns -1, which the truthiness test of the source (only a zero
descriptor counts as failure) does not detect: instead of yielding
nothing and reporting the failure, dump enters the read loop on the
invalid descriptor and never returns, whatever the fuel. -/
theorem dump_open_failure_undetected (b : Bool) (fuel : Nat) :
    openRO (mkWorld true none).file = -1 ∧ dump (mkWorld true none) b fuel = none := by
  refine ⟨rfl, ?_⟩
  show dump (mkWorld true none) b fuel = none
  unfold dump
  simp [mkWorld, openRO, dumpGo_invalid]

/-- C8: the truncation happens exactly once per clear cycle.  From a
closed handler (the state after construction and after clearLogs, whose
closing effect is the third part) a successful fileInit opens with
O_TRUNC, leaving the file existing and empty; from an open handler with
a live descriptor fileInit is the identity short-circuit, and a full
logMessage call appends the rendered record to the existing content
without reopening or truncating. -/
theorem truncate_once_then_append :
    (∀ (w : World) (fd : Int), w.h._open = false → fd ≠ -1 →
        fileInit w fd =
          ({ w with h := { w.h with _fd := fd, _open := true }, file := some [] }, true)) ∧
    (∀ (w : World) (fd : Int), w.h._open = true → w.h._fd ≠ -1 →
        fileInit w fd = (w, true)) ∧
    (∀ (w : World), (clearLogs w).h._open = false) ∧
    (∀ (w : World) (m : Option String) (l : LogLevel) (c : Option String)
        (a : LogAttributes) (fd : Int),
        w.h._open = true → w.h._fd ≠ -1 → w.h._enabled = true →
        (logMessage w m l c a fd true).file =
          some ((w.file.getD []) ++ (formatMessage m l c a).toList)) := by
  refine ⟨?_, ?_, ?_, ?_⟩
  · intro w fd hop hfd
    simp [fileInit, hop, hfd]
  · intro w fd hop hfd
    simp [fileInit, hop, hfd]
  · intro w
    cases hw : w.h._open <;> simp [clearLogs, syncAndClose, hw]
  · intro w m l c a fd hop hfd hen
    simp [logMessage, hen, fileInit, hop, hfd, writeToFile]

/-- Witness for C8: a fresh closed handler truncates on its first
successful open; the open five-byte handler short-circuits fileInit,
stays closed by clearLogs, and appends one rendered record. -/
theorem truncate_once_then_append_witness :
    fileInit wClosed 3 =
      ({ wClosed with h := { wClosed.h with _fd := 3, _open := true }, file := some [] },
        true) ∧
    fileInit wOpen5 7 = (wOpen5, true) ∧
    (clearLogs wOpen5).h._open = false ∧
    (logMessage wOpen5 (some "m") .info none {} 7 true).file =
      some ((wOpen5.file.getD []) ++ (formatMessage (some "m") .info none {}).toList) :=
  ⟨truncate_once_then_append.1 wClosed 3 rfl (by decide),
   truncate_once_then_append.2.1 wOpen5 7 rfl (by decide),
   truncate_once_then_append.2.2.1 wOpen5,
   truncate_once_then_append.2.2.2 wOpen5 (some "m") .info none {} 7 rfl (by decide) rfl⟩

/-- Each single interface call preserves the writer invariant. -/
theorem step_preserves_inv (w : World) (op : Op) (h : WriterInv w) :
    WriterInv (step w op) := by
  obtain ⟨h1, h2⟩ := h
  cases op with
  | log m l c a fd ok =>
    show WriterInv (logMessage w m l c a fd ok)
    unfold logMessage fileInit writeToFile
    cases hen : w.h._enabled
    · simpa [WriterInv] using ⟨h1, h2⟩
    · simp only [hen]
      by_cases hcl : w.h._open = false ∨ w.h._fd = -1
      · have hop : w.h._open = false := by
          rcases hcl with hx | hx
          · exact hx
          · cases hy : w.h._open
            · rfl
            · exact absurd hx (h2 hy)
        by_cases hfd : fd = -1
        · simp [hcl, hfd, WriterInv, hop, h1 hop]
        · cases ok <;> simp [hcl, hfd, WriterInv, hop, h1 hop]
      · cases ok <;> simp [hcl, WriterInv, h2]
        · exact ⟨h1, h2⟩
        · constructor
          · intro hx
            exact absurd hx (by push_neg at hcl; simp [hcl.1])
          · exact h2
  | tick t =>
    show WriterInv (loop w t)
    simp only [loop]
    cases hop : w.h._open
    · simp [hop]
      exact ⟨h1, h2⟩
    · simp [hop]
      split
      · exact ⟨fun _ => rfl, fun _ => h2 hop⟩
      · exact ⟨h1, h2⟩
  | clear =>
    show WriterInv (clearLogs w)
    unfold clearLogs syncAndClose
    cases hop : w.h._open <;> simp [WriterInv, hop, h1, h2]
  | cfg mb ts =>
    exact ⟨h1, h2⟩
  | setEnabled e =>
    exact ⟨h1, h2⟩
  | close =>
    show WriterInv (syncAndClose w)
    unfold syncAndClose
    cases hop : w.h._open <;> simp [WriterInv, hop, h1, h2]

/-- Any history of interface calls preserves the writer invariant. -/
theorem runOps_preserves_inv :
    ∀ (ops : List Op) (w : World), WriterInv w → WriterInv (runOps w ops)
  | [], _, h => h
  | op :: ops, w, h => runOps_preserves_inv ops (step w op) (step_preserves_inv w op h)

/-- C10: in every state reachable from construction by any sequence of
logMessage, loop, clearLogs, configureFsync, enable and destruction
calls, a closed handler has a zero pending-byte counter and an open
handler holds a descriptor different from -1. -/
theorem writer_state_invariant (e : Bool) (f0 : Option (List Char)) (ops : List Op) :
    WriterInv (runOps (mkWorld e f0) ops) :=
  runOps_preserves_inv ops (mkWorld e f0) ⟨fun _ => rfl, fun hx => by simp [mkWorld] at hx⟩

/-- On a chunk free of NUL bytes the %s print delivers the whole chunk. -/
theorem takeWhile_ne_nul (l : List Char) (h : ∀ ch ∈ l, ch ≠ nulChar) :
    l.takeWhile (fun ch => ch != nulChar) = l := by
  induction l with
  | nil => rfl
  | cons c cs ih =>
    have hc : (c != nulChar) = true := by
      simp only [bne_iff_ne, ne_eq]
      exact h c (List.mem_cons_self c cs)
    simp [List.takeWhile_cons, hc, ih fun x hx => h x (List.mem_cons_of_mem c hx)]

/-- The read loop on a valid descriptor over NUL-free content, with
enough fuel for the remaining bytes: it delivers exactly the content
from pos to the end and advances the cursor by that many bytes. -/
theorem dumpGo_valid_total (c : List Char) (hc : ∀ ch ∈ c, ch ≠ nulChar) :
    ∀ (fuel pos : Nat) (cursor : Int) (out : List Char),
      c.length - pos + 2 ≤ fuel →
      dumpGo true c fuel pos cursor out =
        some (out ++ c.drop pos, cursor + ((c.length - pos : Nat) : Int)) := by
  intro fuel
  induction fuel with
  | zero =>
    intro pos cursor out hfuel
    omega
  | succ n ih =>
    intro pos cursor out hfuel
    simp only [dumpGo, if_true]
    by_cases h0 : min 1023 (c.length - pos) = 0
    · have hlen : c.length - pos = 0 := by omega
      have hdrop : c.drop pos = [] := List.drop_eq_nil_of_le (by omega)
      simp [h0, hlen, hdrop]
    · rw [if_neg h0]
      have h1 : 1 ≤ min 1023 (c.length - pos) := Nat.one_le_iff_ne_zero.mpr h0
      have h2 : min 1023 (c.length - pos) ≤ c.length - pos := Nat.min_le_right _ _
      rw [ih (pos + min 1023 (c.length - pos)) _ _ (by omega)]
      have tw : ((c.drop pos).take (min 1023 (c.length - pos))).takeWhile
          (fun ch => ch != nulChar) = (c.drop pos).take (min 1023 (c.length - pos)) := by
        refine takeWhile_ne_nul _ fun x hx => hc x ?_
        exact List.drop_subset pos c (List.take_subset _ _ hx)
      rw [tw]
      simp only [Option.some.injEq, Prod.mk.injEq]
      constructor
      · rw [List.append_assoc]
        congr 1
        have hdd : (c.drop pos).drop (min 1023 (c.length - pos)) =
            c.drop (pos + min 1023 (c.length - pos)) := by
          rw [List.drop_drop]
        rw [← hdd, List.take_append_drop]
      · omega

/-- C6 (amended to NUL-free content): from a world whose log file holds
the NUL-free bytes c, a rewinding dump with enough fuel delivers exactly
c and leaves the persisted cursor at its length; after the NUL-free
bytes m are appended, an incremental dump delivers exactly m, resuming
at the cursor rather than re-reading. -/
theorem dump_resume_nulfree (w : World) (c m : List Char) (hf : w.file = some c)
    (hc : ∀ ch ∈ c, ch ≠ nulChar) (hm : ∀ ch ∈ m, ch ≠ nulChar) :
    dump w true (c.length + 2) = some ({ w with f_cursor := (c.length : Int) }, c) ∧
    dump { w with file := some (c ++ m), f_cursor := (c.length : Int) } false
        (m.length + 2) =
      some ({ w with file := some (c ++ m),
                     f_cursor := (c.length : Int) + (m.length : Int) }, m) := by
  constructor
  · simp only [dump, hf, openRO]
    simp
    rw [dumpGo_valid_total c hc (c.length + 2) 0 0 [] (by omega)]
    simp
  · have hcm : ∀ ch ∈ c ++ m, ch ≠ nulChar := by
      intro ch hch
      rcases List.mem_append.mp hch with hx | hx
      · exact hc ch hx
      · exact hm ch hx
    simp only [dump, openRO]
    simp
    rw [dumpGo_valid_total (c ++ m) hcm (m.length + 2) c.length (c.length : Int) []
      (by rw [List.length_append]; omega)]
    simp

/-- Witness for C6 at the one-byte file with two appended bytes. -/
theorem dump_resume_nulfree_witness :
    dump wA true (([('a' : Char)] : List Char).length + 2) =
      some ({ wA with f_cursor := ((([('a' : Char)] : List Char)).length : Int) },
        [('a' : Char)]) ∧
    dump
        { wA with
          file := some ([('a' : Char)] ++ [('b' : Char), ('c' : Char)])
          f_cursor := ((([('a' : Char)] : List Char)).length : Int) } false
        (([('b' : Char), ('c' : Char)] : List Char).length + 2) =
      some
        ({ wA with
           file := some ([('a' : Char)] ++ [('b' : Char), ('c' : Char)])
           f_cursor := ((([('a' : Char)] : List Char)).length : Int) +
             ((([('b' : Char), ('c' : Char)] : List Char)).length : Int) },
        [('b' : Char), ('c' : Char)]) :=
  dump_resume_nulfree wA [('a' : Char)] [('b' : Char), ('c' : Char)] rfl
    (by decide) (by decide)

/-- C6 counterexample to the claim over every file content: the first
rewinding dump of the one-byte file delivers that byte and leaves the
cursor at 1; after the two bytes NUL then b are appended, the
incremental dump delivers the empty list — the %s print of the chunk
stops at the NUL byte — and not the two appended bytes. -/
theorem dump_resume_claim_cex :
    (dump wA true 3).map (fun p => p.2) = some [('a' : Char)] ∧
    (dump wA true 3).map (fun p => p.1.f_cursor) = some 1 ∧
    (dump { wA with file := some [('a' : Char), nulChar, ('b' : Char)], f_cursor := 1 }
        false 4).map (fun p => p.2) = some [] ∧
    ([] : List Char) ≠ [nulChar, ('b' : Char)] := by
  refine ⟨?_, ?_, ?_, by decide⟩ <;> decide

end FSLog
